import Mathlib

/-!
Verification of the go-psrp capture-harness repository against its
natural-language specification.

The repository under `src/` is a thin capture harness (two Python scripts
driving a PSRP client library).  The specification describes the protocol
client core that such a harness drives: authenticator, envelope codec,
fragmenter, session client and stream demultiplexer.  That core is not
present under `src/`, so its operations are modelled here from the
specification's words (each such definition is marked
"Modelled from the spec"), while the harness scripts themselves are
embedded directly from the source.
-/

deriving instance DecidableEq for Except

namespace GoPsrp

/-! ## Fragmenter (spec section 4.3) -/

/-- Modelled from the spec: the only failure the fragment reassembler can
report is a repeated (object-id, fragment-id) pair ("any fragment arriving
with object-id + fragment-id already seen is a protocol violation
(fails with DuplicateFragmentError)"). -/
inductive FragError where
  | duplicateFragment
deriving DecidableEq

/-- Modelled from the spec: "Fragment: object-id, fragment-id, flags
(start/end-of-message), payload bytes."  Bytes are modelled as `Nat`. -/
structure Fragment where
  objectId : Nat
  fragmentId : Nat
  isStart : Bool
  isEnd : Bool
  payload : List Nat
deriving DecidableEq

/-- Chunk-splitting loop, structurally recursive on a fuel argument so that
it evaluates by kernel reduction.  The fuel is always instantiated with the
payload length, which each recursive step strictly decreases, so the
fuel-exhausted branch is never reached on the intended inputs. -/
def chunkGo (maxSize : Nat) : Nat → List Nat → List (List Nat)
  | 0, p => [p]
  | fuel + 1, p =>
    if maxSize = 0 ∨ p.length ≤ maxSize then [p]
    else p.take maxSize :: chunkGo maxSize fuel (p.drop maxSize)

/-- Modelled from the spec: split a payload into maximal chunks of at most
`maxSize` bytes.  A payload that already fits (or an empty payload) is one
chunk, so every message has at least one fragment ("a single fragment can
carry both" flags).  A max-size of zero is degenerate; the whole payload is
then emitted as a single chunk so that the function is total. -/
def chunkPayload (maxSize : Nat) (payload : List Nat) : List (List Nat) :=
  chunkGo maxSize payload.length payload

/-- Modelled from the spec: build the fragments for the chunk list `cs`,
numbering them from `i` upward out of `total` fragments overall.
"fragment-id increases monotonically per object-id starting at zero; the
first fragment sets a start flag, the last sets an end flag". -/
def mkFragments (oid total : Nat) (i : Nat) : List (List Nat) → List Fragment
  | [] => []
  | c :: cs => ⟨oid, i, i == 0, i + 1 == total, c⟩ :: mkFragments oid total (i + 1) cs

/-- Modelled from the spec: `fragment(object-id, payload, max-size) ->
sequence of Fragment` (finite sequence, ids starting at zero). -/
def fragment (oid : Nat) (payload : List Nat) (maxSize : Nat) : List Fragment :=
  let cs := chunkPayload maxSize payload
  mkFragments oid cs.length 0 cs

/-- The duplicate-detection key of a fragment: its (object-id, fragment-id)
pair. -/
def fragKey (f : Fragment) : Nat × Nat := (f.objectId, f.fragmentId)

/-- Modelled from the spec: reassembly state — the set of
(object-id, fragment-id) pairs already seen (fragment ids are single-use
per object-id), the fragments buffered awaiting their end flag, and the
completed message, if any. -/
structure ReassemblyState where
  seen : List (Nat × Nat)
  buffered : List Fragment
  completed : Option (List Nat)
deriving DecidableEq

/-- The initial, empty reassembly state. -/
def initReassembly : ReassemblyState := ⟨[], [], none⟩

/-- Modelled from the spec: once the end flag is observed the buffered
fragments of that object are concatenated "in fragment-id order"; "any gap
in fragment-id sequence stalls reassembly" (result `none`), it is not
silently skipped. -/
def completeCheck (frags : List Fragment) : Option (List Nat) :=
  let sorted := frags.insertionSort (fun a b => a.fragmentId ≤ b.fragmentId)
  if sorted.map Fragment.fragmentId = List.range sorted.length then
    some (sorted.map Fragment.payload).flatten
  else none

/-- Modelled from the spec: deliver one fragment to the reassembler.  A
fragment whose (object-id, fragment-id) pair was already seen fails with
`DuplicateFragmentError`; otherwise the fragment is buffered, and when it
carries the end flag the buffered fragments of its object are checked for
completion. -/
def stepFragment (st : ReassemblyState) (f : Fragment) :
    Except FragError ReassemblyState :=
  if fragKey f ∈ st.seen then .error .duplicateFragment
  else
    let seen' := st.seen ++ [fragKey f]
    let buf := st.buffered ++ [f]
    if f.isEnd then
      match completeCheck (buf.filter (fun g => g.objectId == f.objectId)) with
      | some msg =>
        .ok { seen := seen',
              buffered := buf.filter (fun g => g.objectId != f.objectId),
              completed := some (st.completed.getD msg) }
      | none => .ok ⟨seen', buf, st.completed⟩
    else .ok ⟨seen', buf, st.completed⟩

/-- Modelled from the spec: run the reassembler over a fragment stream from
the given state. -/
def reassembleFrom (st : ReassemblyState) :
    List Fragment → Except FragError (Option (List Nat))
  | [] => .ok st.completed
  | f :: rest =>
    match stepFragment st f with
    | .error e => .error e
    | .ok st' => reassembleFrom st' rest

/-- Modelled from the spec: `reassemble(stream of Fragment) -> completed
message or None-if-incomplete`, failing with `DuplicateFragmentError` on a
repeated (object-id, fragment-id) pair. -/
def reassemble (frags : List Fragment) : Except FragError (Option (List Nat)) :=
  reassembleFrom initReassembly frags

/-! ### Fragmenter lemmas -/

lemma chunkGo_flatten (maxSize : Nat) :
    ∀ (fuel : Nat) (p : List Nat), (chunkGo maxSize fuel p).flatten = p := by
  intro fuel
  induction fuel with
  | zero => intro p; simp [chunkGo]
  | succ n ih =>
    intro p
    by_cases h : maxSize = 0 ∨ p.length ≤ maxSize
    · simp [chunkGo, h]
    · simp [chunkGo, h, ih]

lemma chunkPayload_flatten (maxSize : Nat) (p : List Nat) :
    (chunkPayload maxSize p).flatten = p :=
  chunkGo_flatten maxSize p.length p

lemma chunkGo_ne_nil (maxSize fuel : Nat) (p : List Nat) :
    chunkGo maxSize fuel p ≠ [] := by
  cases fuel with
  | zero => simp [chunkGo]
  | succ n =>
    by_cases h : maxSize = 0 ∨ p.length ≤ maxSize <;> simp [chunkGo, h]

lemma chunkPayload_ne_nil (maxSize : Nat) (p : List Nat) :
    chunkPayload maxSize p ≠ [] :=
  chunkGo_ne_nil maxSize p.length p

lemma mkFragments_map_fragmentId (oid t : Nat) :
    ∀ (cs : List (List Nat)) (i : Nat),
      (mkFragments oid t i cs).map Fragment.fragmentId = List.range' i cs.length := by
  intro cs
  induction cs with
  | nil => intro i; simp [mkFragments]
  | cons c cs ih => intro i; simp [mkFragments, List.range'_succ, ih]

lemma mkFragments_map_payload (oid t : Nat) :
    ∀ (cs : List (List Nat)) (i : Nat),
      (mkFragments oid t i cs).map Fragment.payload = cs := by
  intro cs
  induction cs with
  | nil => intro i; simp [mkFragments]
  | cons c cs ih => intro i; simp [mkFragments, ih]

lemma mkFragments_objectId (oid t : Nat) :
    ∀ (cs : List (List Nat)) (i : Nat) (f : Fragment),
      f ∈ mkFragments oid t i cs → f.objectId = oid := by
  intro cs
  induction cs with
  | nil => intro i f h; simp [mkFragments] at h
  | cons c cs ih =>
    intro i f h
    simp only [mkFragments, List.mem_cons] at h
    rcases h with h | h
    · subst h; rfl
    · exact ih (i + 1) f h

lemma mkFragments_append (oid t : Nat) :
    ∀ (xs ys : List (List Nat)) (i : Nat),
      mkFragments oid t i (xs ++ ys) =
        mkFragments oid t i xs ++ mkFragments oid t (i + xs.length) ys := by
  intro xs
  induction xs with
  | nil => intro ys i; simp [mkFragments]
  | cons x xs ih =>
    intro ys i
    simp only [List.cons_append, mkFragments, List.length_cons]
    have h : i + (xs.length + 1) = i + 1 + xs.length := by omega
    rw [h, List.append_eq, ih]

lemma mkFragments_length (oid t : Nat) (cs : List (List Nat)) (i : Nat) :
    (mkFragments oid t i cs).length = cs.length := by
  have h := congrArg List.length (mkFragments_map_payload oid t cs i)
  simpa using h

lemma reassembleFrom_nil (st : ReassemblyState) : reassembleFrom st [] = .ok st.completed :=
  rfl

lemma reassembleFrom_step_ok (st st' : ReassemblyState) (f : Fragment)
    (rest : List Fragment) (h : stepFragment st f = .ok st') :
    reassembleFrom st (f :: rest) = reassembleFrom st' rest := by
  simp [reassembleFrom, h]

lemma stepFragment_not_seen_not_end (st : ReassemblyState) (f : Fragment)
    (h1 : fragKey f ∉ st.seen) (h2 : f.isEnd = false) :
    stepFragment st f = .ok ⟨st.seen ++ [fragKey f], st.buffered ++ [f], st.completed⟩ := by
  simp [stepFragment, h1, h2]

lemma stepFragment_not_seen_end_complete (st : ReassemblyState) (f : Fragment)
    (msg : List Nat) (h1 : fragKey f ∉ st.seen) (h2 : f.isEnd = true)
    (h3 : completeCheck (st.buffered.filter (fun g => g.objectId == f.objectId) ++ [f]) =
      some msg) :
    stepFragment st f = .ok ⟨st.seen ++ [fragKey f],
      st.buffered.filter (fun g => g.objectId != f.objectId),
      some (st.completed.getD msg)⟩ := by
  simp [stepFragment, h1, h2, h3]

lemma completeCheck_of_sorted (frags : List Fragment)
    (h : frags.map Fragment.fragmentId = List.range frags.length) :
    completeCheck frags = some (frags.map Fragment.payload).flatten := by
  have hsorted : List.Sorted (fun a b : Fragment => a.fragmentId ≤ b.fragmentId) frags := by
    apply List.pairwise_map.mp
    rw [h]
    exact (List.pairwise_lt_range _).imp fun hab => Nat.le_of_lt hab
  unfold completeCheck
  rw [List.Sorted.insertionSort_eq hsorted, if_pos h]

lemma reassembleFrom_mkFragments (oid t : Nat) :
    ∀ (rest done : List (List Nat)), rest ≠ [] → done.length + rest.length = t →
      reassembleFrom
        ⟨(List.range done.length).map (fun j => (oid, j)),
          mkFragments oid t 0 done, none⟩
        (mkFragments oid t done.length rest)
      = .ok (some (done ++ rest).flatten) := by
  intro rest
  induction rest with
  | nil => intro done h _; exact absurd rfl h
  | cons c rest ih =>
    intro done _ hlen
    have hmem :
        fragKey ⟨oid, done.length, done.length == 0, done.length + 1 == t, c⟩ ∉
          (List.range done.length).map (fun j => (oid, j)) := by
      simp [fragKey]
    have hbuf : mkFragments oid t 0 done ++
          [(⟨oid, done.length, done.length == 0, done.length + 1 == t, c⟩ : Fragment)] =
        mkFragments oid t 0 (done ++ [c]) := by
      rw [mkFragments_append]
      simp [mkFragments]
    have hone : mkFragments oid t done.length (c :: rest) =
        (⟨oid, done.length, done.length == 0, done.length + 1 == t, c⟩ : Fragment) ::
          mkFragments oid t (done.length + 1) rest := rfl
    rw [hone]
    cases rest with
    | nil =>
      have hend : ((done.length + 1 == t) : Bool) = true := by
        simp at hlen ⊢
        omega
      have hcond : (mkFragments oid t 0 (done ++ [c])).map Fragment.fragmentId =
          List.range (mkFragments oid t 0 (done ++ [c])).length := by
        rw [mkFragments_map_fragmentId, mkFragments_length, List.range_eq_range']
      have hfil : (mkFragments oid t 0 done).filter (fun g => g.objectId == oid) =
          mkFragments oid t 0 done := by
        apply List.filter_eq_self.mpr
        intro g hg
        simp [mkFragments_objectId oid t _ _ g hg]
      have hcc : completeCheck ((mkFragments oid t 0 done).filter
            (fun g => g.objectId == oid) ++
            [(⟨oid, done.length, done.length == 0, done.length + 1 == t, c⟩ : Fragment)]) =
          some (done ++ [c]).flatten := by
        rw [hfil, hbuf, completeCheck_of_sorted _ hcond, mkFragments_map_payload]
      have hstep := stepFragment_not_seen_end_complete
        ⟨(List.range done.length).map (fun j => (oid, j)), mkFragments oid t 0 done, none⟩
        ⟨oid, done.length, done.length == 0, done.length + 1 == t, c⟩
        (done ++ [c]).flatten hmem hend hcc
      rw [reassembleFrom_step_ok _ _ _ _ hstep]
      rfl
    | cons c' rest' =>
      have hend : ((done.length + 1 == t) : Bool) = false := by
        simp only [List.length_cons] at hlen
        simp
        omega
      have hstep := stepFragment_not_seen_not_end
        ⟨(List.range done.length).map (fun j => (oid, j)), mkFragments oid t 0 done, none⟩
        ⟨oid, done.length, done.length == 0, done.length + 1 == t, c⟩
        hmem hend
      rw [reassembleFrom_step_ok _ _ _ _ hstep]
      have hseen : (List.range done.length).map (fun j => (oid, j)) ++ [(oid, done.length)] =
          (List.range (done.length + 1)).map (fun j => (oid, j)) := by
        rw [List.range_succ]
        simp
      have hlen2 : done.length + 1 = (done ++ [c]).length := by simp
      have hrec := ih (done ++ [c]) (by simp) (by simp at hlen ⊢; omega)
      rw [← hlen2] at hrec
      simp only [fragKey]
      rw [hseen, hbuf, hrec]
      simp

lemma stepFragment_seen_dup (st : ReassemblyState) (f : Fragment)
    (h : fragKey f ∈ st.seen) : stepFragment st f = .error .duplicateFragment := by
  simp [stepFragment, h]

lemma stepFragment_ok_seen (st st' : ReassemblyState) (f : Fragment)
    (h : stepFragment st f = .ok st') : st'.seen = st.seen ++ [fragKey f] := by
  unfold stepFragment at h
  split at h
  · simp at h
  · dsimp only at h
    split at h
    · split at h
      · simp only [Except.ok.injEq] at h
        subst h
        rfl
      · simp only [Except.ok.injEq] at h
        subst h
        rfl
    · simp only [Except.ok.injEq] at h
      subst h
      rfl

lemma reassembleFrom_dup (frags : List Fragment) :
    ∀ (st : ReassemblyState),
      (¬ (frags.map fragKey).Nodup ∨ ∃ f ∈ frags, fragKey f ∈ st.seen) →
      reassembleFrom st frags = .error .duplicateFragment := by
  induction frags with
  | nil =>
    intro st h
    rcases h with h | ⟨f, hf, _⟩
    · simp at h
    · simp at hf
  | cons f rest ih =>
    intro st h
    by_cases hm : fragKey f ∈ st.seen
    · simp [reassembleFrom, stepFragment_seen_dup st f hm]
    · cases hstep : stepFragment st f with
      | error e =>
        cases e
        simp [reassembleFrom, hstep]
      | ok st' =>
        rw [reassembleFrom_step_ok _ _ _ _ hstep]
        apply ih
        have hseen := stepFragment_ok_seen st st' f hstep
        rcases h with h | ⟨g, hg, hgseen⟩
        · by_cases h1 : fragKey f ∈ rest.map fragKey
          · right
            obtain ⟨g, hg, hkey⟩ := List.mem_map.mp h1
            refine ⟨g, hg, ?_⟩
            rw [hseen, hkey]
            simp
          · left
            intro hnd
            rw [List.map_cons] at h
            exact h (List.nodup_cons.mpr ⟨h1, hnd⟩)
        · rcases List.mem_cons.mp hg with rfl | hg'
          · exact absurd hgseen hm
          · right
            refine ⟨g, hg', ?_⟩
            rw [hseen]
            exact List.mem_append_left _ hgseen

/-- C2: for every payload, object-id and max-size, delivering the fragment
sequence produced by `fragment` in order to `reassemble` yields exactly the
original payload byte-for-byte (fragment/reassemble round-trip law). -/
theorem c2_fragment_reassemble_roundtrip (oid : Nat) (payload : List Nat) (maxSize : Nat) :
    reassemble (fragment oid payload maxSize) = .ok (some payload) := by
  have h := reassembleFrom_mkFragments oid (chunkPayload maxSize payload).length
    (chunkPayload maxSize payload) [] (chunkPayload_ne_nil maxSize payload) (by simp)
  simp only [List.nil_append] at h
  rw [chunkPayload_flatten] at h
  exact h

/-- C3: every fragment sequence in which some (object-id, fragment-id) pair
occurs a second time makes `reassemble` fail with `DuplicateFragmentError`
rather than silently accepting the second copy. -/
theorem c3_duplicate_fragment_rejected (frags : List Fragment)
    (h : ¬ (frags.map fragKey).Nodup) :
    reassemble frags = .error .duplicateFragment :=
  reassembleFrom_dup frags initReassembly (Or.inl h)

/-- Witness for C3 at a concrete two-fragment stream repeating pair (3, 0). -/
theorem c3_duplicate_fragment_rejected_witness :
    reassemble [⟨3, 0, true, false, [1]⟩, ⟨3, 0, false, true, [2]⟩] =
      .error .duplicateFragment :=
  c3_duplicate_fragment_rejected
    [⟨3, 0, true, false, [1]⟩, ⟨3, 0, false, true, [2]⟩] (by decide)

example : reassemble (fragment 7 [1, 2, 3, 4, 5] 2) = .ok (some [1, 2, 3, 4, 5]) := by
  decide

/-! ## Error taxonomy (spec section 7) -/

/-- Modelled from the spec: the closed error taxonomy of the core —
TransportError, AuthenticationError, ProtocolError, DecodeFault,
SequenceError. -/
inductive CoreError where
  | transportError
  | authenticationError
  | protocolError
  | decodeFault
  | sequenceError
deriving DecidableEq

/-! ## Authenticator signing context (spec section 4.1) -/

/-- Modelled from the spec: "AuthContext: opaque signing/sealing key
material plus a sequence counter." -/
structure AuthContext where
  sealKey : Nat
  seqNum : Nat
deriving DecidableEq

/-- A signed protocol message: the sequence number attached at signing
time, the body bytes, and the per-message integrity code. -/
structure SignedMessage where
  seq : Nat
  body : List Nat
  integrity : Nat
deriving DecidableEq

/-- Modelled from the spec: the per-message integrity code computed from
the context's key material and the sequence number (the concrete mixing is
opaque in the spec; any keyed accumulation serves). -/
def computeSignature (key seq : Nat) (body : List Nat) : Nat :=
  body.foldl (fun h b => h * 31 + b) (key + seq)

/-- Modelled from the spec: "every signed message increments it by one" —
signing attaches the current sequence number and steps the context. -/
def signMessage (ctx : AuthContext) (body : List Nat) : AuthContext × SignedMessage :=
  ({ ctx with seqNum := ctx.seqNum + 1 },
   { seq := ctx.seqNum, body := body,
     integrity := computeSignature ctx.sealKey ctx.seqNum body })

/-- Modelled from the spec: sign a whole sequence of message bodies on one
context, threading the context through. -/
def sendAll (ctx : AuthContext) : List (List Nat) → AuthContext × List SignedMessage
  | [] => (ctx, [])
  | b :: bs =>
    let step := signMessage ctx b
    let rest := sendAll step.1 bs
    (rest.1, step.2 :: rest.2)

/-- Modelled from the spec: verify the sequence numbers of received signed
messages; "a gap indicates message loss and invalidates the session (fails
with SequenceError)". -/
def checkSeq (expected : Nat) : List SignedMessage → Except CoreError Nat
  | [] => .ok expected
  | m :: ms => if m.seq = expected then checkSeq (expected + 1) ms else .error .sequenceError

/-- Modelled from the spec: connection-level session phase for signed
traffic; `failed` is the invalidated state ("no auto-recovery — the whole
connection must be re-established"). -/
inductive SessionPhase where
  | active (expected : Nat)
  | failed
deriving DecidableEq

/-- Modelled from the spec: receiving one signed message steps the expected
sequence number; a repeated or skipped number invalidates the session, and
an invalidated session never recovers. -/
def recvSigned : SessionPhase → SignedMessage → SessionPhase
  | .failed, _ => .failed
  | .active n, m => if m.seq = n then .active (n + 1) else .failed

lemma sendAll_map_seq (bodies : List (List Nat)) :
    ∀ (ctx : AuthContext),
      (sendAll ctx bodies).2.map SignedMessage.seq =
        List.range' ctx.seqNum bodies.length := by
  induction bodies with
  | nil => intro ctx; simp [sendAll]
  | cons b bs ih =>
    intro ctx
    simp [sendAll, signMessage, ih, List.range'_succ]

lemma chain'_succ_range' (n : Nat) :
    ∀ (s : Nat), List.Chain' (fun a b => b = a + 1) (List.range' s n) := by
  induction n with
  | zero => intro s; simp
  | succ m ih =>
    intro s
    cases m with
    | zero => simp
    | succ k =>
      rw [List.range'_succ, List.range'_succ]
      refine List.Chain'.cons rfl ?_
      rw [← List.range'_succ]
      exact ih (s + 1)

/-- C4: every sequence of messages signed on one AuthContext carries
strictly increasing sequence numbers, exactly one apart per message; a
received message with a repeated or skipped number fails with
`SequenceError`, and the invalidated session never recovers. -/
theorem c4_signing_sequence (ctx : AuthContext) (bodies : List (List Nat)) :
    (sendAll ctx bodies).2.map SignedMessage.seq =
      List.range' ctx.seqNum bodies.length ∧
    List.Chain' (fun a b => b.seq = a.seq + 1) (sendAll ctx bodies).2 ∧
    (∀ (n : Nat) (m : SignedMessage) (rest : List SignedMessage),
      m.seq ≠ n → checkSeq n (m :: rest) = .error .sequenceError) ∧
    (∀ (m : SignedMessage), recvSigned .failed m = .failed) := by
  refine ⟨sendAll_map_seq bodies ctx, ?_, ?_, ?_⟩
  · have h := chain'_succ_range' bodies.length ctx.seqNum
    rw [← sendAll_map_seq bodies ctx] at h
    exact (List.chain'_map SignedMessage.seq).mp h
  · intro n m rest hne
    simp [checkSeq, hne]
  · intro m
    rfl

/-- Witness for C4: three messages signed from sequence number 5 carry
5, 6, 7; a message with sequence 2 where 0 is expected fails with
`SequenceError`; the failed session absorbs further messages. -/
theorem c4_signing_sequence_witness :
    (sendAll ⟨9, 5⟩ [[1], [2], [3]]).2.map SignedMessage.seq = [5, 6, 7] ∧
    checkSeq 0 [⟨2, [], 0⟩] = .error .sequenceError ∧
    recvSigned .failed ⟨0, [], 0⟩ = .failed := by
  refine ⟨?_, ?_, ?_⟩
  · rw [(c4_signing_sequence ⟨9, 5⟩ [[1], [2], [3]]).1]
    decide
  · exact (c4_signing_sequence ⟨9, 5⟩ []).2.2.1 0 ⟨2, [], 0⟩ [] (by decide)
  · exact (c4_signing_sequence ⟨9, 5⟩ []).2.2.2 ⟨0, [], 0⟩

example : reassemble (fragment 7 [] 4) = .ok (some []) := by decide

example :
    reassemble [⟨1, 0, true, false, [9]⟩, ⟨1, 0, true, false, [9]⟩] =
      .error .duplicateFragment := by decide

/-! ## Stream records and the demultiplexer (spec sections 3 and 4.5) -/

/-- Modelled from the spec: the stream-kind tag
(output/error/debug/warning/verbose/progress). -/
inductive StreamKind where
  | output
  | error
  | debug
  | warning
  | verbose
  | progress
deriving DecidableEq

/-- Modelled from the spec: "StreamRecord: stream-kind tag, ordinal
sequence number, payload." -/
structure StreamRecord where
  kind : StreamKind
  ordinal : Nat
  payload : String
deriving DecidableEq

/-- Modelled from the spec: the typed per-kind buffers accumulated by the
stream demultiplexer, plus the had-errors flag that is set "the moment any
error-kind record ... is observed".  Output records are kept in `outRecs`,
error records in `errRecs`, and the remaining kinds (debug, warning,
verbose, progress) in `otherRecs`, each record keeping its kind tag. -/
structure Buffers where
  outRecs : List StreamRecord
  errRecs : List StreamRecord
  otherRecs : List StreamRecord
  hadErrors : Bool
deriving DecidableEq

/-- The empty buffer state. -/
def initBuffers : Buffers := ⟨[], [], [], false⟩

/-- Modelled from the spec: classify one decoded record by its declared
stream kind, appending it to the corresponding kind's buffer; an
error-kind record sets the had-errors flag. -/
def feedRecord (b : Buffers) (r : StreamRecord) : Buffers :=
  match r.kind with
  | .output => { b with outRecs := b.outRecs ++ [r] }
  | .error => { b with errRecs := b.errRecs ++ [r], hadErrors := true }
  | _ => { b with otherRecs := b.otherRecs ++ [r] }

/-- Feed a batch of records in order. -/
def feedRecords (b : Buffers) (rs : List StreamRecord) : Buffers :=
  rs.foldl feedRecord b

/-- Modelled from the spec: a fully reassembled decoded PSRP message,
identified by its object-id and bundling stream entries. -/
structure DecodedMessage where
  objectId : Nat
  entries : List StreamRecord
deriving DecidableEq

/-- Modelled from the spec: demultiplexer state — the object-ids of
messages already delivered (for duplicate detection) and the per-kind
buffers. -/
structure DemuxState where
  seenIds : List Nat
  buffers : Buffers
deriving DecidableEq

/-- The empty demultiplexer state. -/
def initDemux : DemuxState := ⟨[], initBuffers⟩

/-- Modelled from the spec: `feed(decoded PSRP message) -> zero or more
StreamRecord`; duplicate delivery of an already fully reassembled message
is detected via object-id and contributes nothing. -/
def feed (st : DemuxState) (msg : DecodedMessage) : DemuxState × List StreamRecord :=
  if msg.objectId ∈ st.seenIds then (st, [])
  else ({ seenIds := st.seenIds ++ [msg.objectId],
          buffers := feedRecords st.buffers msg.entries }, msg.entries)

/-- C5: feeding the same fully reassembled decoded message twice produces
its StreamRecords exactly once — the second delivery leaves the state
unchanged and emits nothing, so the combined emission of both deliveries
equals that of the first alone. -/
theorem c5_feed_idempotent (st : DemuxState) (msg : DecodedMessage) :
    feed (feed st msg).1 msg = ((feed st msg).1, []) ∧
    (feed st msg).2 ++ (feed (feed st msg).1 msg).2 = (feed st msg).2 := by
  by_cases h : msg.objectId ∈ st.seenIds
  · constructor <;> simp [feed, h]
  · constructor <;> simp [feed, h]

/-! ## Session client (spec sections 4.4, 5, 6, 7) -/

/-- Modelled from the spec: one receive-output long-poll round trip as the
client observes it — buffered stream records, the terminal exit-code
notification (with any final buffered records), or a transient transport
timeout. -/
inductive PollResponse where
  | data (records : List StreamRecord)
  | exit (code : Nat) (records : List StreamRecord)
  | timeout
deriving DecidableEq

/-- Modelled from the spec: a mock server script for one execute()
transaction — whether authentication succeeds, the CreateShell and
CreateCommand responses (a server-assigned identifier, or an error the
server answers with), and the sequence of receive-output poll
responses. -/
structure ServerScript where
  authOk : Bool
  shell : Except CoreError Nat
  command : Except CoreError Nat
  polls : List PollResponse
deriving DecidableEq

/-- Modelled from the spec: "ExecutionResult: aggregated output text,
per-kind stream collections, boolean had-errors flag.  Constructed once
per execute() call; immutable after return."  The four parts are the
aggregated stdout text, the error-stream buffer, the other-stream records
(debug/warning/verbose/progress, each keeping its kind tag), and the
had-errors flag. -/
structure ExecutionResult where
  output : String
  errors : List StreamRecord
  others : List StreamRecord
  hadErrors : Bool
deriving DecidableEq

/-- Modelled from the spec: construct the result of one execute() call
from the final buffers and the terminal exit code; had-errors is "true iff
the error stream is non-empty or the command's terminal state is non-zero
exit". -/
def mkResult (b : Buffers) (exitCode : Nat) : ExecutionResult :=
  { output := String.join (b.outRecs.map StreamRecord.payload),
    errors := b.errRecs,
    others := b.otherRecs,
    hadErrors := b.hadErrors || exitCode != 0 }

/-- Modelled from the spec: the receive-output polling loop of execute().
Each poll either contributes records, terminates with the exit code, or
times out; a timeout is retried while retry budget remains ("transport-
level retries are local and bounded"), and an exhausted budget or script
is a transport failure. -/
def pollLoop (retries : Nat) (polls : List PollResponse) (b : Buffers) :
    Except CoreError (Buffers × Nat) :=
  match polls with
  | [] => .error .transportError
  | .data rs :: rest => pollLoop retries rest (feedRecords b rs)
  | .exit code rs :: _ => .ok (feedRecords b rs, code)
  | .timeout :: rest =>
    match retries with
    | 0 => .error .transportError
    | r + 1 => pollLoop r rest b

/-- One client-visible protocol exchange, for observing which operations a
run of execute() issues.  Receive-output polls carry the shell and command
identifiers they are addressed to. -/
inductive Action where
  | connect
  | authenticate
  | createShell
  | createCommand
  | receiveOutput (shellId commandId : Nat)
  | closeShell
deriving DecidableEq

/-- The receive-output attempts the polling loop makes (including retried
ones), each addressed to the given shell and command identifiers. -/
def pollTrace (retries : Nat) (polls : List PollResponse) (sid cid : Nat) : List Action :=
  match polls with
  | [] => []
  | .data _ :: rest => .receiveOutput sid cid :: pollTrace retries rest sid cid
  | .exit _ _ :: _ => [.receiveOutput sid cid]
  | .timeout :: rest =>
    match retries with
    | 0 => [.receiveOutput sid cid]
    | r + 1 => .receiveOutput sid cid :: pollTrace r rest sid cid

/-- Modelled from the spec: the single synchronous public entry point
`execute(command-string) -> ExecutionResult` of the session client, run
against a server script.  It performs connect → authenticate → open-shell
→ run-command → poll-output → close-shell and either returns a complete
ExecutionResult or fails with one of the CoreError kinds. -/
def executeCore (retries : Nat) (s : ServerScript) : Except CoreError ExecutionResult :=
  if s.authOk then
    match s.shell with
    | .error e => .error e
    | .ok _ =>
      match s.command with
      | .error e => .error e
      | .ok _ =>
        match pollLoop retries s.polls initBuffers with
        | .error e => .error e
        | .ok (b, code) => .ok (mkResult b code)
  else .error .authenticationError

/-- The sequence of protocol operations a run of executeCore issues:
connect and authenticate, then CreateShell, CreateCommand, the
receive-output polls, and the best-effort CloseShell once the command has
completed. -/
def executeTrace (retries : Nat) (s : ServerScript) : List Action :=
  if s.authOk then
    match s.shell with
    | .error _ => [.connect, .authenticate, .createShell]
    | .ok sid =>
      match s.command with
      | .error _ => [.connect, .authenticate, .createShell, .createCommand]
      | .ok cid =>
        match pollLoop retries s.polls initBuffers with
        | .error _ => [.connect, .authenticate, .createShell, .createCommand] ++
            pollTrace retries s.polls sid cid
        | .ok _ => [.connect, .authenticate, .createShell, .createCommand] ++
            pollTrace retries s.polls sid cid ++ [.closeShell]
  else [.connect, .authenticate]

/-- The records the server delivers across the polls of a completed run:
everything up to and including the first exit notification (timeouts
deliver nothing). -/
def delivered : List PollResponse → List StreamRecord
  | [] => []
  | .data rs :: rest => rs ++ delivered rest
  | .exit _ rs :: _ => rs
  | .timeout :: rest => delivered rest

/-- The first terminal exit code of a poll script, if any. -/
def firstExit : List PollResponse → Option Nat
  | [] => none
  | .data _ :: rest => firstExit rest
  | .exit code _ :: _ => some code
  | .timeout :: rest => firstExit rest

/-- The complete result of a server script: every delivered record
classified into the result, with the script's terminal exit code. -/
def completeResult (s : ServerScript) : ExecutionResult :=
  mkResult (feedRecords initBuffers (delivered s.polls)) ((firstExit s.polls).getD 0)

/-! ### Session client lemmas -/

lemma feedRecords_append (b : Buffers) (rs1 rs2 : List StreamRecord) :
    feedRecords b (rs1 ++ rs2) = feedRecords (feedRecords b rs1) rs2 := by
  simp [feedRecords]

lemma pollLoop_ok (polls : List PollResponse) :
    ∀ (r : Nat) (b b' : Buffers) (code : Nat),
      pollLoop r polls b = .ok (b', code) →
      b' = feedRecords b (delivered polls) ∧ firstExit polls = some code := by
  induction polls with
  | nil => intro r b b' code h; simp [pollLoop] at h
  | cons p rest ih =>
    intro r b b' code h
    cases p with
    | data rs =>
      simp only [pollLoop] at h
      obtain ⟨hb, hcode⟩ := ih r (feedRecords b rs) b' code h
      refine ⟨?_, hcode⟩
      rw [hb, delivered, feedRecords_append]
    | exit code' rs =>
      simp only [pollLoop, Except.ok.injEq, Prod.mk.injEq] at h
      exact ⟨h.1.symm, by rw [firstExit, h.2]⟩
    | timeout =>
      cases r with
      | zero => simp [pollLoop] at h
      | succ r' =>
        simp only [pollLoop] at h
        exact ih r' b b' code h

lemma feedRecord_invariant (b : Buffers) (r : StreamRecord)
    (h : b.hadErrors = !b.errRecs.isEmpty) :
    (feedRecord b r).hadErrors = !(feedRecord b r).errRecs.isEmpty := by
  unfold feedRecord
  cases r.kind <;> simp [h]

lemma feedRecords_invariant (rs : List StreamRecord) :
    ∀ (b : Buffers), b.hadErrors = !b.errRecs.isEmpty →
      (feedRecords b rs).hadErrors = !(feedRecords b rs).errRecs.isEmpty := by
  induction rs with
  | nil => intro b h; exact h
  | cons r rest ih =>
    intro b h
    simp only [feedRecords, List.foldl_cons]
    exact ih (feedRecord b r) (feedRecord_invariant b r h)

lemma executeCore_ok_parts (r : Nat) (s : ServerScript) (res : ExecutionResult)
    (h : executeCore r s = .ok res) :
    s.authOk = true ∧ (∃ sid, s.shell = .ok sid) ∧ (∃ cid, s.command = .ok cid) ∧
    ∃ b code, pollLoop r s.polls initBuffers = .ok (b, code) ∧ res = mkResult b code := by
  by_cases hauth : s.authOk = true
  · cases hs : s.shell with
    | error e => simp [executeCore, hauth, hs] at h
    | ok sid =>
      cases hc : s.command with
      | error e => simp [executeCore, hauth, hs, hc] at h
      | ok cid =>
        cases hp : pollLoop r s.polls initBuffers with
        | error e => simp [executeCore, hauth, hs, hc, hp] at h
        | ok bc =>
          obtain ⟨b, code⟩ := bc
          simp only [executeCore, hauth, if_true, hs, hc, hp, Except.ok.injEq] at h
          exact ⟨hauth, ⟨sid, rfl⟩, ⟨cid, rfl⟩, b, code, rfl, h.symm⟩
  · simp [executeCore, hauth] at h

lemma pollTrace_mem (sid cid : Nat) (polls : List PollResponse) :
    ∀ (r : Nat) (a : Action), a ∈ pollTrace r polls sid cid →
      a = .receiveOutput sid cid := by
  induction polls with
  | nil => intro r a h; simp [pollTrace] at h
  | cons p rest ih =>
    intro r a h
    cases p with
    | data rs =>
      simp only [pollTrace, List.mem_cons] at h
      rcases h with rfl | h
      · rfl
      · exact ih r a h
    | exit code rs =>
      simp only [pollTrace, List.mem_singleton] at h
      exact h
    | timeout =>
      cases r with
      | zero =>
        simp only [pollTrace, List.mem_singleton] at h
        exact h
      | succ r' =>
        simp only [pollTrace, List.mem_cons] at h
        rcases h with rfl | h
        · rfl
        · exact ih r' a h

lemma pollTrace_count_zero (r sid cid : Nat) (polls : List PollResponse) (a : Action)
    (hne : ∀ s c, a ≠ .receiveOutput s c) :
    (pollTrace r polls sid cid).count a = 0 := by
  apply List.count_eq_zero.mpr
  intro hmem
  exact hne sid cid (pollTrace_mem sid cid polls r a hmem)

lemma executeTrace_ok_eq (r : Nat) (s : ServerScript) (sid cid : Nat) (b : Buffers)
    (code : Nat) (hauth : s.authOk = true) (hs : s.shell = .ok sid)
    (hc : s.command = .ok cid) (hp : pollLoop r s.polls initBuffers = .ok (b, code)) :
    executeTrace r s = [.connect, .authenticate, .createShell, .createCommand] ++
      pollTrace r s.polls sid cid ++ [.closeShell] := by
  simp [executeTrace, hauth, hs, hc, hp]

lemma pollLoop_insert_timeout (xs : List PollResponse) :
    ∀ (ys : List PollResponse) (r : Nat) (b : Buffers) (v : Buffers × Nat),
      pollLoop r (xs ++ ys) b = .ok v →
      pollLoop (r + 1) (xs ++ .timeout :: ys) b = .ok v := by
  induction xs with
  | nil =>
    intro ys r b v h
    simpa [pollLoop] using h
  | cons p xs ih =>
    intro ys r b v h
    cases p with
    | data rs =>
      simp only [List.cons_append, pollLoop] at h ⊢
      exact ih ys r (feedRecords b rs) v h
    | exit code rs =>
      simp only [List.cons_append, pollLoop] at h ⊢
      exact h
    | timeout =>
      cases r with
      | zero => simp [List.cons_append, pollLoop] at h
      | succ r' =>
        simp only [List.cons_append, pollLoop] at h ⊢
        exact ih ys r' b v h

/-- C1: the session client's single synchronous entry point returns, for
every executed command, either one of the defined errors or the four-part
result: aggregated stdout text, error-stream buffer, other-stream records
and had-errors flag. -/
theorem c1_execute_four_part_result (r : Nat) (s : ServerScript) :
    (∃ e, executeCore r s = .error e) ∨
    (∃ (stdout : String) (stderr others : List StreamRecord) (he : Bool),
      executeCore r s = .ok ⟨stdout, stderr, others, he⟩) := by
  cases h : executeCore r s with
  | error e => exact Or.inl ⟨e, rfl⟩
  | ok res =>
    exact Or.inr ⟨res.output, res.errors, res.others, res.hadErrors, rfl⟩

/-- C6: for every completed execute() call, the had-errors flag is true
iff the error-stream buffer is non-empty or the command's terminal state
is a non-zero exit code. -/
theorem c6_had_errors_iff (r : Nat) (s : ServerScript) (res : ExecutionResult)
    (code : Nat) (h : executeCore r s = .ok res)
    (hcode : firstExit s.polls = some code) :
    (res.hadErrors = true ↔ res.errors ≠ [] ∨ code ≠ 0) := by
  obtain ⟨-, -, -, b, code', hp, hres⟩ := executeCore_ok_parts r s res h
  obtain ⟨hb, hcode'⟩ := pollLoop_ok s.polls r initBuffers b code' hp
  have hcc : code' = code := by
    rw [hcode'] at hcode
    exact Option.some_injective _ hcode
  subst hcc
  have hinv : b.hadErrors = !b.errRecs.isEmpty := by
    rw [hb]
    exact feedRecords_invariant (delivered s.polls) initBuffers rfl
  subst hres
  simp only [mkResult, hinv]
  constructor
  · intro hor
    rcases Bool.or_eq_true_iff.mp hor with h1 | h1
    · left
      intro hnil
      rw [hnil] at h1
      simp at h1
    · right
      simpa using h1
  · intro hor
    apply Bool.or_eq_true_iff.mpr
    rcases hor with h1 | h1
    · left
      simpa [List.isEmpty_iff] using h1
    · right
      simpa using h1

/-- Scenario C of the spec: an output-only run with exit code 0. -/
def scriptC : ServerScript :=
  ⟨true, .ok 11, .ok 22, [.data [⟨.output, 0, "HOST1"⟩], .exit 0 []]⟩

/-- Scenario D of the spec: an error-record run with exit code 1. -/
def scriptD : ServerScript :=
  ⟨true, .ok 11, .ok 22, [.exit 1 [⟨.error, 0, "boom"⟩]]⟩

example : executeCore 0 scriptC = .ok ⟨"HOST1", [], [], false⟩ := by decide

example : executeCore 0 scriptD = .ok ⟨"", [⟨.error, 0, "boom"⟩], [], true⟩ := by
  decide

/-- Witness for C6 at scenarios C and D: the output-only exit-0 run has
had-errors false, the error-record exit-1 run has had-errors true with a
non-empty error buffer; both satisfy the iff at their concrete exit
codes. -/
theorem c6_had_errors_iff_witness :
    (executeCore 0 scriptC = .ok ⟨"HOST1", [], [], false⟩ ∧
      ((⟨"HOST1", [], [], false⟩ : ExecutionResult).hadErrors = true ↔
        (⟨"HOST1", [], [], false⟩ : ExecutionResult).errors ≠ [] ∨ (0 : Nat) ≠ 0)) ∧
    (executeCore 0 scriptD = .ok ⟨"", [⟨.error, 0, "boom"⟩], [], true⟩ ∧
      ((⟨"", [⟨.error, 0, "boom"⟩], [], true⟩ : ExecutionResult).hadErrors = true ↔
        (⟨"", [⟨.error, 0, "boom"⟩], [], true⟩ : ExecutionResult).errors ≠ [] ∨
          (1 : Nat) ≠ 0)) :=
  ⟨⟨by decide, c6_had_errors_iff 0 scriptC ⟨"HOST1", [], [], false⟩ 0 (by decide) rfl⟩,
   ⟨by decide, c6_had_errors_iff 0 scriptD ⟨"", [⟨.error, 0, "boom"⟩], [], true⟩ 1
      (by decide) rfl⟩⟩

/-- C7: every invocation of execute() either returns the complete
ExecutionResult of the transaction — all delivered records, never a
partial or truncated output — or fails with one of the five defined error
kinds (TransportError, AuthenticationError, ProtocolError, DecodeFault,
SequenceError). -/
theorem c7_execute_complete_or_error (r : Nat) (s : ServerScript) :
    executeCore r s = .ok (completeResult s) ∨
    (∃ e, executeCore r s = .error e ∧
      (e = .transportError ∨ e = .authenticationError ∨ e = .protocolError ∨
        e = .decodeFault ∨ e = .sequenceError)) := by
  cases h : executeCore r s with
  | error e =>
    right
    refine ⟨e, rfl, ?_⟩
    cases e
    · exact Or.inl rfl
    · exact Or.inr (Or.inl rfl)
    · exact Or.inr (Or.inr (Or.inl rfl))
    · exact Or.inr (Or.inr (Or.inr (Or.inl rfl)))
    · exact Or.inr (Or.inr (Or.inr (Or.inr rfl)))
  | ok res =>
    left
    obtain ⟨-, -, -, b, code, hp, hres⟩ := executeCore_ok_parts r s res h
    obtain ⟨hb, hcode⟩ := pollLoop_ok s.polls r initBuffers b code hp
    have : completeResult s = res := by
      rw [completeResult, ← hb, hcode, hres]
      rfl
    rw [this]

/-- C8: in a completed run, CreateShell and CreateCommand are each issued
exactly once; a transient timeout inserted into the poll sequence is
absorbed by one extra retry, reusing the same shell and command
identifiers for every receive-output poll, and the final result equals the
result of the run without the timeout. -/
theorem c8_single_create_and_retry (r : Nat) (s : ServerScript) (res : ExecutionResult)
    (xs ys : List PollResponse) (hpolls : s.polls = xs ++ ys)
    (h : executeCore r s = .ok res) :
    executeCore (r + 1) { s with polls := xs ++ .timeout :: ys } = .ok res ∧
    (executeTrace r s).count .createShell = 1 ∧
    (executeTrace r s).count .createCommand = 1 ∧
    (executeTrace (r + 1) { s with polls := xs ++ .timeout :: ys }).count
      .createShell = 1 ∧
    (executeTrace (r + 1) { s with polls := xs ++ .timeout :: ys }).count
      .createCommand = 1 ∧
    (∀ sid cid, Action.receiveOutput sid cid ∈
        executeTrace (r + 1) { s with polls := xs ++ .timeout :: ys } →
      s.shell = .ok sid ∧ s.command = .ok cid) := by
  obtain ⟨hauth, ⟨sid, hs⟩, ⟨cid, hc⟩, b, code, hp, hres⟩ := executeCore_ok_parts r s res h
  rw [hpolls] at hp
  have hp' : pollLoop (r + 1) (xs ++ .timeout :: ys) initBuffers = .ok (b, code) :=
    pollLoop_insert_timeout xs ys r initBuffers (b, code) hp
  have hexec' : executeCore (r + 1) { s with polls := xs ++ .timeout :: ys } = .ok res := by
    simp only [executeCore, hauth, if_true, hs, hc, hp']
    rw [hres]
  have htr : executeTrace r s = [.connect, .authenticate, .createShell, .createCommand] ++
      pollTrace r s.polls sid cid ++ [.closeShell] :=
    executeTrace_ok_eq r s sid cid b code hauth hs hc (by rw [hpolls]; exact hp)
  have htr' : executeTrace (r + 1) { s with polls := xs ++ .timeout :: ys } =
      [.connect, .authenticate, .createShell, .createCommand] ++
        pollTrace (r + 1) (xs ++ .timeout :: ys) sid cid ++ [.closeShell] :=
    executeTrace_ok_eq (r + 1) { s with polls := xs ++ .timeout :: ys } sid cid b code
      hauth hs hc hp'
  refine ⟨hexec', ?_, ?_, ?_, ?_, ?_⟩
  · rw [htr]
    simp [List.count_append, pollTrace_count_zero r sid cid s.polls Action.createShell
      (by intro u v hne; cases hne), List.count_cons, List.count_nil]
  · rw [htr]
    simp [List.count_append, pollTrace_count_zero r sid cid s.polls Action.createCommand
      (by intro u v hne; cases hne), List.count_cons, List.count_nil]
  · rw [htr']
    simp [List.count_append, pollTrace_count_zero (r + 1) sid cid (xs ++ .timeout :: ys)
      Action.createShell (by intro u v hne; cases hne), List.count_cons, List.count_nil]
  · rw [htr']
    simp [List.count_append, pollTrace_count_zero (r + 1) sid cid (xs ++ .timeout :: ys)
      Action.createCommand (by intro u v hne; cases hne), List.count_cons, List.count_nil]
  · intro sid' cid' hmem
    rw [htr'] at hmem
    simp only [List.mem_append] at hmem
    rcases hmem with (hmem | hmem) | hmem
    · simp at hmem
    · have := pollTrace_mem sid cid (xs ++ .timeout :: ys) (r + 1) _ hmem
      cases this
      exact ⟨hs, hc⟩
    · simp at hmem

/-- Witness for C8, scenario E: against the scenario-C script, a timeout
inserted after the first data poll is absorbed by one extra retry with an
identical final result; CreateShell and CreateCommand are counted exactly
once. -/
theorem c8_single_create_and_retry_witness :
    executeCore 1 { scriptC with polls :=
        [.data [⟨.output, 0, "HOST1"⟩]] ++ .timeout :: [.exit 0 []] } =
      .ok ⟨"HOST1", [], [], false⟩ ∧
    (executeTrace 0 scriptC).count .createShell = 1 ∧
    (executeTrace 0 scriptC).count .createCommand = 1 :=
  have happ := c8_single_create_and_retry 0 scriptC ⟨"HOST1", [], [], false⟩
    [.data [⟨.output, 0, "HOST1"⟩]] [.exit 0 []] rfl (by decide)
  ⟨happ.1, happ.2.1, happ.2.2.1⟩

/-! ## Capture harness scripts (`src/compare_pypsrp.py` and
`src/scripts/compare_pypsrp.py`) -/

/-- The configuration the harness passes to the client library's `Client`
constructor: host, port, username, password, ssl flag and auth
mechanism. -/
structure ClientConfig where
  host : String
  port : Nat
  username : String
  password : String
  ssl : Bool
  auth : String
deriving DecidableEq

/-- The `Client(...)` arguments of `src/compare_pypsrp.py` (lines 15-22). -/
def compareConfig : ClientConfig :=
  ⟨"10.211.55.6", 5985, "winrm-test", "sigK@@6=q8B2z8iQDzbiqJr4", false, "ntlm"⟩

/-- The `Client(...)` arguments of `src/scripts/compare_pypsrp.py`
(lines 15-22). -/
def scriptsConfig : ClientConfig :=
  ⟨"127.0.0.1", 5985, "testuser", "REDACTED_PASSWORD", false, "ntlm"⟩

/-- The behaviour of the external client library's `execute_ps` call: from
a client configuration and a command string it either returns the
three-tuple `(output, streams, had_errors)` or raises. -/
def ExecPs : Type :=
  ClientConfig → String → Except String (String × List StreamRecord × Bool)

/-- The outcome of running a Python `with` block: the result (normal value
or propagated exception) together with whether the context manager's
exit/teardown ran. -/
structure WithOutcome (α : Type) where
  result : Except String α
  exited : Bool

/-- Python `with Client(...) as client:` semantics for the harness body:
the context manager's teardown runs both when the body returns normally
and when it raises, after which a raised exception propagates. -/
def runWith {α : Type} (body : Except String α) : WithOutcome α :=
  match body with
  | .ok a => { result := .ok a, exited := true }
  | .error e => { result := .error e, exited := true }

/-- The body of the harness's main(): call
`client.execute_ps("hostname")`, unpack the three-part result, and keep
what main() prints — the output text and the had-errors flag
(lines 23-26 of either script). -/
def mainBody (execPs : ExecPs) (cfg : ClientConfig) : Except String (String × Bool) :=
  match execPs cfg "hostname" with
  | .ok (output, _streams, hadErrors) => .ok (output, hadErrors)
  | .error e => .error e

/-- main() of the harness, generic in its configuration: run the body
under the with-statement. -/
def runMain (execPs : ExecPs) (cfg : ClientConfig) : WithOutcome (String × Bool) :=
  runWith (mainBody execPs cfg)

/-- main() of `src/compare_pypsrp.py`, transcribed with its literal
constants. -/
def compareMain (execPs : ExecPs) : WithOutcome (String × Bool) :=
  runWith (match execPs ⟨"10.211.55.6", 5985, "winrm-test",
      "sigK@@6=q8B2z8iQDzbiqJr4", false, "ntlm"⟩ "hostname" with
    | .ok (output, _streams, hadErrors) => .ok (output, hadErrors)
    | .error e => .error e)

/-- main() of `src/scripts/compare_pypsrp.py`, transcribed with its
literal constants. -/
def scriptsMain (execPs : ExecPs) : WithOutcome (String × Bool) :=
  runWith (match execPs ⟨"127.0.0.1", 5985, "testuser",
      "REDACTED_PASSWORD", false, "ntlm"⟩ "hostname" with
    | .ok (output, _streams, hadErrors) => .ok (output, hadErrors)
    | .error e => .error e)

/-- C9: the client session opened by main()'s with-statement is released —
its exit/teardown runs — both when execute_ps returns normally and when it
raises, and the body's outcome is passed through unchanged. -/
theorem c9_with_always_releases (execPs : ExecPs) (cfg : ClientConfig) :
    (runMain execPs cfg).exited = true ∧
    (runMain execPs cfg).result = mainBody execPs cfg := by
  unfold runMain runWith
  cases mainBody execPs cfg with
  | ok v => exact ⟨rfl, rfl⟩
  | error e => exact ⟨rfl, rfl⟩

/-- C10: the two harness files are behaviourally equivalent — both mains
equal the same generic main at their respective configurations, the
configurations agree on port 5985, ssl false and auth "ntlm", and they
differ only in the host, username and password constants. -/
theorem c10_harness_files_equivalent :
    (∀ execPs : ExecPs, compareMain execPs = runMain execPs compareConfig) ∧
    (∀ execPs : ExecPs, scriptsMain execPs = runMain execPs scriptsConfig) ∧
    { compareConfig with
        host := scriptsConfig.host
        username := scriptsConfig.username
        password := scriptsConfig.password } = scriptsConfig ∧
    compareConfig.port = 5985 ∧ compareConfig.ssl = false ∧
    compareConfig.auth = "ntlm" ∧ scriptsConfig.port = 5985 ∧
    scriptsConfig.ssl = false ∧ scriptsConfig.auth = "ntlm" :=
  ⟨fun _ => rfl, fun _ => rfl, rfl, rfl, rfl, rfl, rfl, rfl, rfl⟩

end GoPsrp
